import Mathlib

/-!
Verification of the SVG text-stripping and PDF page-extraction logic of
`extract.py` (functions `rasterize_svg_to_png`, `strip_text_from_svg`,
`extract_pdf_pymupdf`, `get_output_dir`, `process_pdfs`).

The XML documents handled by `strip_text_from_svg` and
`rasterize_svg_to_png` are modelled as parsed element trees, exactly the
view `xml.etree.ElementTree` gives the Python code after `ET.fromstring`:
tags carry the expanded `{namespace-uri}local` form, attributes are an
ordered association list (ElementTree's `attrib` dict preserves insertion
order), and children are an ordered list of sub-elements.  Serialisation
back to a string is modelled structurally: the output of a function is the
element tree that the output string parses to, except that the literal
`xmlns="http://www.w3.org/2000/svg"` declaration written by the code when
it wraps a promoted `<g>` is recorded as an ordinary attribute of the
wrapper so that no serialisation information is lost.
-/

/-- A parsed XML element: expanded tag, ordered attribute list, children. -/
inductive Elem : Type where
  | elem : String → List (String × String) → List Elem → Elem
deriving Repr

namespace Elem

mutual

/-- Structural equality test on element trees. -/
def beq : Elem → Elem → Bool
  | .elem t a c, .elem t' a' c' => t == t' && a == a' && beqList c c'

/-- Structural equality test on lists of element trees. -/
def beqList : List Elem → List Elem → Bool
  | [], [] => true
  | x :: xs, y :: ys => beq x y && beqList xs ys
  | _, _ => false

end

instance : BEq Elem := ⟨beq⟩

mutual

theorem eq_of_beq : ∀ {a b : Elem}, beq a b = true → a = b
  | .elem t a c, .elem t' a' c', h => by
    simp only [beq, Bool.and_eq_true, beq_iff_eq] at h
    obtain ⟨⟨rfl, rfl⟩, h⟩ := h
    rw [eqList_of_beqList h]

theorem eqList_of_beqList : ∀ {as bs : List Elem}, beqList as bs = true → as = bs
  | [], [], _ => rfl
  | x :: xs, y :: ys, h => by
    simp only [beqList, Bool.and_eq_true] at h
    rw [eq_of_beq h.1, eqList_of_beqList h.2]

end

mutual

theorem beq_refl : ∀ (a : Elem), beq a a = true
  | .elem t a c => by
    simp only [beq, Bool.and_eq_true, beq_iff_eq]
    exact ⟨⟨trivial, trivial⟩, beqList_refl c⟩

theorem beqList_refl : ∀ (as : List Elem), beqList as as = true
  | [] => rfl
  | x :: xs => by
    simp only [beqList, Bool.and_eq_true]
    exact ⟨beq_refl x, beqList_refl xs⟩

end

instance : DecidableEq Elem := fun a b =>
  decidable_of_iff (beq a b = true) ⟨eq_of_beq, fun h => h ▸ beq_refl a⟩

instance : LawfulBEq Elem where
  eq_of_beq := eq_of_beq
  rfl := beq_refl _

/-- The element's (namespace-expanded) tag. -/
def tag : Elem → String
  | .elem t _ _ => t

/-- The element's attribute list, in document order. -/
def attrs : Elem → List (String × String)
  | .elem _ a _ => a

/-- The element's direct children, in document order. -/
def children : Elem → List Elem
  | .elem _ _ c => c

@[simp] theorem tag_mk (t a c) : (Elem.elem t a c).tag = t := rfl
@[simp] theorem attrs_mk (t a c) : (Elem.elem t a c).attrs = a := rfl
@[simp] theorem children_mk (t a c) : (Elem.elem t a c).children = c := rfl

/-- Python's `key in element.attrib`: the attribute list has the key. -/
def hasAttr (e : Elem) (key : String) : Bool :=
  e.attrs.any (fun p => p.1 == key)

/-- ElementTree's `element.attrib.get(key)`: first value bound to `key`, if any. -/
def getAttr (e : Elem) (key : String) : Option String :=
  (e.attrs.find? (fun p => p.1 == key)).map Prod.snd

mutual

/-- Does `d` occur anywhere in the tree `x` (as `x` itself or nested)? -/
def occursIn (d : Elem) : Elem → Bool
  | .elem t a cs => (d == .elem t a cs) || occursInList d cs

/-- Does `d` occur in one of the trees of the list? -/
def occursInList (d : Elem) : List Elem → Bool
  | [] => false
  | c :: cs => occursIn d c || occursInList d cs

end

end Elem

/-- ElementTree's expanded tag of an SVG `<g>` element, as compared against
on line 54 of `extract.py`. -/
def gTag : String := "{http://www.w3.org/2000/svg}g"

/-- ElementTree's expanded tag of an SVG `<use>` element (line 62). -/
def useTag : String := "{http://www.w3.org/2000/svg}use"

/-- ElementTree's expanded tag of an SVG `<svg>` root element. -/
def svgTag : String := "{http://www.w3.org/2000/svg}svg"

/-- The SVG namespace URI registered on line 47 of `extract.py`. -/
def svgNS : String := "http://www.w3.org/2000/svg"

/-- ElementTree's expanded name of an `xlink:href` attribute. -/
def xlinkHref : String := "{http://www.w3.org/1999/xlink}href"

/-- Lines 53–57 of `extract.py`: collect the direct children of the parsed
root whose tag is the namespaced `g` tag; if there is exactly one, it
becomes the new root. -/
def effectiveRoot (x : Elem) : Elem :=
  let g_tags := x.children.filter (fun c => c.tag == gTag)
  if g_tags.length == 1 then g_tags.headD x else x

/-- A `<use>` element carrying the `data-text` marker attribute — the
condition of line 62 of `extract.py`. -/
def isTextDuplicateRef (c : Elem) : Bool :=
  c.tag == useTag && c.hasAttr "data-text"

/-- Lines 59–64 of `extract.py`: iterate over a snapshot (`list(root)`) of
the root's children and remove every marked `<use>`; the net effect on the
children list is a filter. -/
def removeMarkedUses (e : Elem) : Elem :=
  .elem e.tag e.attrs (e.children.filter (fun c => !isTextDuplicateRef c))

/-- Line 69 of `extract.py`: `'<svg xmlns="http://www.w3.org/2000/svg">'
++ tostring(root) ++ '</svg>'`, as the element tree the output parses to
(the namespace declaration kept as an attribute of the wrapper). -/
def wrapInSvg (e : Elem) : Elem :=
  .elem svgTag [("xmlns", svgNS)] [e]

/-- The filter `strip_text_from_svg` (lines 33–71 of `extract.py`) on parsed trees:
promote a single `<g>` child to be the root, drop the root's direct
marked `<use>` children (`removeMarkedUses (effectiveRoot x)` is the
`root` variable as it stands on line 66), and re-wrap in a minimal
`<svg>` element whenever the root left standing is a `<g>`. -/
def strip_text_from_svg (x : Elem) : Elem :=
  if (removeMarkedUses (effectiveRoot x)).tag == gTag then
    wrapInSvg (removeMarkedUses (effectiveRoot x))
  else
    removeMarkedUses (effectiveRoot x)


/-- ElementTree's `element.set(key, value)` on the insertion-ordered
attribute dict: replace the value in place if the key is present,
otherwise append the pair at the end. -/
def setAttr (attrList : List (String × String)) (key value : String) :
    List (String × String) :=
  if attrList.any (fun p => p.1 == key) then
    attrList.map (fun p => if p.1 == key then (key, value) else p)
  else attrList ++ [(key, value)]

/-- Lines 14–28 of `extract.py`, the dimension-fixing step of
`rasterize_svg_to_png`: the result is the parsed tree of the SVG content
that gets handed to the rasterizer.  If `width` or `height` is missing
from the parsed root's attributes, both are set to the defaults (in px)
and the modified tree is serialised; otherwise the file is passed through
byte-for-byte, i.e. its tree is unchanged.  The final `cairosvg.svg2png`
call is an external library call, outside this model. -/
def rasterize_svg_to_png (default_width default_height : Nat) (root : Elem) :
    Elem :=
  if !(root.hasAttr "width") || !(root.hasAttr "height") then
    Elem.elem root.tag
      (setAttr (setAttr root.attrs "width" (toString default_width ++ "px"))
        "height" (toString default_height ++ "px"))
      root.children
  else root

/-- The function `rasterize_svg_to_png` at its default dimensions 1920 and 1080. -/
def rasterize_svg_to_png_default (root : Elem) : Elem :=
  rasterize_svg_to_png 1920 1080 root

/-- An embedded raster image of a PDF page as PyMuPDF reports it:
its `xref` reference id, its real format tag (`image["ext"]`), and its
raw encoded bytes (kept abstract as a string). -/
structure PdfImage where
  xref : Nat
  ext : String
  data : String
deriving Repr, DecidableEq

/-- A PDF page: its plain text and its embedded raster images. -/
structure PdfPage where
  text : String
  images : List PdfImage
deriving Repr, DecidableEq

/-- The file name of line 90 of `extract.py`: `page<N>_text.txt`. -/
def pageTextName (n : Nat) : String := "page" ++ toString n ++ "_text.txt"

/-- The file name of line 99 of `extract.py`:
`page<N>-image<XREF>.png` — note the literal `.png` suffix, used for
every image regardless of its `ext` format tag. -/
def pageImageName (n : Nat) (xref : Nat) : String :=
  "page" ++ toString n ++ "-image" ++ toString xref ++ ".png"

/-- Lines 86–101 of `extract.py` (`extract_pdf_pymupdf` in `"text"` output
mode): the ordered list of (file name, content) writes performed, with
file names relative to `output_dir`.  `page.number` in PyMuPDF is the
page's 0-based position in the document, modelled by `List.enum`. -/
def extract_pdf_text_writes (pages : List PdfPage) : List (String × String) :=
  (pages.enum).flatMap (fun p =>
    (pageTextName p.1, p.2.text) ::
      p.2.images.map (fun im => (pageImageName p.1 im.xref, im.data)))

/-- Python's `os.path.join` for the relative-path shapes used in `extract.py`. -/
def pathJoin (a b : String) : String := a ++ "/" ++ b

/-- Python's `s.endswith(suffix)`. -/
def pyEndsWith (s suffix : String) : Bool :=
  let sc := s.toList
  let tc := suffix.toList
  decide (tc.length ≤ sc.length) && (sc.drop (sc.length - tc.length) == tc)

/-- Python's `os.path.splitext(s)[0]`: strip the extension that starts at the last
dot of the name, where the leading dots of a hidden-file name do not
start an extension. -/
def splitextStem (s : String) : String :=
  let cs := s.toList
  let lead := cs.takeWhile (fun c => c == '.')
  let rest := cs.drop lead.length
  if rest.any (fun c => c == '.') then
    let rrev := rest.reverse
    let afterRev := rrev.takeWhile (fun c => !(c == '.'))
    String.mk (lead ++ (rrev.drop (afterRev.length + 1)).reverse)
  else s

/-- Lines 114–132 of `extract.py` (`get_output_dir`): the returned
directory (`none` models Python's `None`) together with the list of
messages printed. -/
def get_output_dir (source_dir : String) (output_type : String) :
    Option String × List String :=
  if output_type == "text" then
    (some (pathJoin source_dir "extracted-text"), [])
  else if output_type == "svg" then
    (some (pathJoin source_dir "extracted-svg"), [])
  else
    (none, ["Unsupported type: " ++ output_type])

/-- Python's `pdfs[:limit]` for an integer `limit`: the first `limit`
elements when `limit ≥ 0`, all but the last `-limit` when negative. -/
def pySliceTo (n : Int) (xs : List α) : List α :=
  if 0 ≤ n then xs.take n.toNat
  else xs.take (xs.length - (-n).toNat)

/-- Lines 151–152 of `extract.py`: `if limit: pdfs = pdfs[:limit]`.
`limit` is `int` or `None`; the truncation runs only when `limit` is
truthy, i.e. neither `None` nor `0`. -/
def applyLimit (limit : Option Int) (xs : List α) : List α :=
  match limit with
  | none => xs
  | some n => if n == 0 then xs else pySliceTo n xs

/-- The observable effects of a `process_pdfs` run: messages printed,
directories created (in order), (file name, content) writes, the paths of
the documents whose extraction completed, and the uncaught exception that
escaped the run, if any. -/
structure ProcessResult where
  messages : List String
  dirsCreated : List String
  writes : List (String × String)
  extracted : List String
  error : Option String
deriving Repr, DecidableEq

/-- Lines 154–159 of `extract.py`: the per-document loop.  `extract`
stands for the effectful `extract_pdf_pymupdf` call (taking the pdf path
and the per-document output directory), which may raise; there is no
`try`/`except` around it, so a raised exception aborts the loop and
escapes — modelled by stopping with `error := some e`. -/
def processLoop (extract : String → String → Except String (List (String × String)))
    (source_dir extracted_dir : String) :
    List String → ProcessResult → ProcessResult
  | [], acc => acc
  | pdf_name :: rest, acc =>
    let output_dir := pathJoin extracted_dir (splitextStem pdf_name)
    let pdf_path := pathJoin source_dir pdf_name
    let acc1 := { acc with dirsCreated := acc.dirsCreated ++ [output_dir] }
    match extract pdf_path output_dir with
    | .error e => { acc1 with error := some e }
    | .ok ws =>
      processLoop extract source_dir extracted_dir rest
        { acc1 with
          writes := acc1.writes ++ ws,
          extracted := acc1.extracted ++ [pdf_path] }

/-- Lines 134–159 of `extract.py` (`process_pdfs`): resolve the output
directory (returning early, with nothing created, when it is `None`),
create it, list the `.pdf` files of the source directory (`listing` is
the `os.listdir` result), truncate by `limit`, and run the loop. -/
def process_pdfs
    (extract : String → String → Except String (List (String × String)))
    (listing : List String) (source_dir : String) (output_type : String)
    (limit : Option Int) : ProcessResult :=
  match get_output_dir source_dir output_type with
  | (none, msgs) => ⟨msgs, [], [], [], none⟩
  | (some extracted_dir, msgs) =>
    let pdfs := applyLimit limit
      (listing.filter (fun f => pyEndsWith f ".pdf"))
    processLoop extract source_dir extracted_dir pdfs
      ⟨msgs, [extracted_dir], [], [], none⟩

mutual

/-- Number of elements with tag `t` in the whole tree. -/
def countTag (t : String) : Elem → Nat
  | .elem tg _ cs => (if tg == t then 1 else 0) + countTagList t cs

/-- Number of elements with tag `t` in a list of trees. -/
def countTagList (t : String) : List Elem → Nat
  | [] => 0
  | c :: cs => countTag t c + countTagList t cs

end

/-- The spec's removal-rule example
`<svg><g><use data-text="A"/><use xlink:href="#g1"/></g></svg>`,
as ElementTree parses it (namespace declarations, elided in the spec's
shorthand, made explicit: SVG is the default namespace and the `xlink`
prefix is bound to the linking namespace). -/
def removalExample : Elem :=
  .elem svgTag []
    [.elem gTag []
      [.elem useTag [("data-text", "A")] [],
       .elem useTag [(xlinkHref, "#g1")] []]]

/-- ElementTree's expanded tag of an SVG `<rect>` element. -/
def rectTag : String := "{http://www.w3.org/2000/svg}rect"

/-- A root with a non-reference `<rect>` child next to a single `<g>`
child: `<svg xmlns="…"><rect/><g/></svg>`. -/
def rectBesideG : Elem :=
  .elem svgTag [] [.elem rectTag [] [], .elem gTag [] []]

/-- A document with a text-duplicate `<use>` nested two levels below the
effective root: `<svg><g><g><use data-text="A"/></g></g></svg>`. -/
def nestedMarkedUse : Elem :=
  .elem svgTag []
    [.elem gTag []
      [.elem gTag []
        [.elem useTag [("data-text", "A")] []]]]

namespace Elem

theorem occursIn_self (d : Elem) : occursIn d d = true := by
  cases d with
  | elem t a cs =>
    rw [occursIn]
    have h : (Elem.elem t a cs == Elem.elem t a cs) = true := beq_refl _
    rw [h, Bool.true_or]

theorem occursInList_of_mem {d c : Elem} {cs : List Elem}
    (hc : c ∈ cs) (h : occursIn d c = true) : occursInList d cs = true := by
  induction cs with
  | nil => cases hc
  | cons y ys ih =>
    rw [occursInList]
    rcases List.mem_cons.mp hc with rfl | hmem
    · rw [h, Bool.true_or]
    · rw [ih hmem, Bool.or_true]

theorem occursIn_of_mem_children {d c x : Elem}
    (hc : c ∈ x.children) (h : occursIn d c = true) : occursIn d x = true := by
  cases x with
  | elem t a cs =>
    simp only [children_mk] at hc
    rw [occursIn]
    rw [occursInList_of_mem hc h, Bool.or_true]

end Elem

theorem effectiveRoot_of_single {x g : Elem}
    (h : x.children.filter (fun c => c.tag == gTag) = [g]) :
    effectiveRoot x = g ∧ g.tag = gTag := by
  constructor
  · unfold effectiveRoot
    rw [h]
    rfl
  · have : g ∈ x.children.filter (fun c => c.tag == gTag) := by
      rw [h]; exact List.mem_singleton.mpr rfl
    have := (List.mem_filter.mp this).2
    simpa using this

theorem effectiveRoot_of_not_single {x : Elem}
    (h : (x.children.filter (fun c => c.tag == gTag)).length ≠ 1) :
    effectiveRoot x = x := by
  unfold effectiveRoot
  rw [if_neg (by simpa using h)]

@[simp] theorem removeMarkedUses_tag (e : Elem) :
    (removeMarkedUses e).tag = e.tag := rfl

@[simp] theorem removeMarkedUses_attrs (e : Elem) :
    (removeMarkedUses e).attrs = e.attrs := rfl

@[simp] theorem removeMarkedUses_children (e : Elem) :
    (removeMarkedUses e).children =
      e.children.filter (fun c => !isTextDuplicateRef c) := rfl

theorem removeMarkedUses_idem (e : Elem) :
    removeMarkedUses (removeMarkedUses e) = removeMarkedUses e := by
  unfold removeMarkedUses
  simp only [Elem.children_mk, Elem.tag_mk, Elem.attrs_mk]
  congr 1
  exact List.filter_eq_self.mpr (fun a ha => (List.mem_filter.mp ha).2)

theorem gTag_ne_useTag : gTag ≠ useTag := by decide

theorem svgTag_ne_gTag : svgTag ≠ gTag := by decide

/-- Removing marked `<use>` children does not change which children are
`<g>` elements: a `<g>` is never a marked `<use>`. -/
theorem filter_g_removeMarkedUses (x : Elem) :
    (removeMarkedUses x).children.filter (fun c => c.tag == gTag)
      = x.children.filter (fun c => c.tag == gTag) := by
  rw [removeMarkedUses_children, List.filter_filter]
  apply List.filter_congr
  intro a _
  by_cases hg : a.tag = gTag
  · have hkeep : isTextDuplicateRef a = false := by
      unfold isTextDuplicateRef
      rw [hg]
      simp [gTag_ne_useTag]
    simp [hg, hkeep]
  · simp [hg]

/-- The wrapper written on line 69 contains exactly one `<g>` child, so a
second parse-and-filter pass promotes that `<g>` again. -/
theorem effectiveRoot_wrapInSvg {e : Elem} (h : e.tag = gTag) :
    effectiveRoot (wrapInSvg e) = e := by
  unfold effectiveRoot wrapInSvg
  simp [h]

theorem strip_wrapInSvg_of_clean {e : Elem} (hg : e.tag = gTag)
    (hclean : removeMarkedUses e = e) :
    strip_text_from_svg (wrapInSvg e) = wrapInSvg e := by
  unfold strip_text_from_svg
  rw [effectiveRoot_wrapInSvg hg, hclean, if_pos (by simp [hg])]

theorem occursIn_wrapInSvg {d e : Elem} (h : Elem.occursIn d e = true) :
    Elem.occursIn d (wrapInSvg e) = true :=
  Elem.occursIn_of_mem_children (by simp [wrapInSvg]) h

/-- C4: a direct child of the effective root survives the removal pass of
`strip_text_from_svg` exactly when it is not a `<use>` element carrying
the `data-text` marker; the pruned effective root is what the output
serialises (wrapped when it is a `<g>`); and on the spec's example
`<svg><g><use data-text="A"/><use xlink:href="#g1"/></g></svg>` the output
has exactly one `use` element — the marked reference is gone and the
non-marked one is retained. -/
theorem removal_rule (x c : Elem) (hc : c ∈ (effectiveRoot x).children) :
    (c ∈ (removeMarkedUses (effectiveRoot x)).children ↔
      ¬(c.tag = useTag ∧ c.hasAttr "data-text" = true))
    ∧ (strip_text_from_svg x = wrapInSvg (removeMarkedUses (effectiveRoot x))
        ∨ strip_text_from_svg x = removeMarkedUses (effectiveRoot x))
    ∧ countTag useTag (strip_text_from_svg removalExample) = 1
    ∧ Elem.occursIn (.elem useTag [("data-text", "A")] [])
        (strip_text_from_svg removalExample) = false
    ∧ Elem.occursIn (.elem useTag [(xlinkHref, "#g1")] [])
        (strip_text_from_svg removalExample) = true := by
  refine ⟨?_, ?_, by decide, by decide, by decide⟩
  · rw [removeMarkedUses_children, List.mem_filter]
    simp only [hc, true_and, Bool.not_eq_true']
    unfold isTextDuplicateRef
    simp [not_and]
  · unfold strip_text_from_svg
    split
    · exact Or.inl rfl
    · exact Or.inr rfl

/-- Witness for `removal_rule`: on the spec's example the marked `<use>`
is a child of the effective root and does not survive. -/
theorem removal_rule_witness :
    (Elem.elem useTag [("data-text", "A")] []) ∈
      (effectiveRoot removalExample).children
    ∧ (Elem.elem useTag [("data-text", "A")] []) ∉
      (removeMarkedUses (effectiveRoot removalExample)).children := by
  have h := removal_rule removalExample
    (.elem useTag [("data-text", "A")] []) (by decide)
  exact ⟨by decide, fun hmem => (h.1.mp hmem) (by decide)⟩

/-- C6: removal only inspects depth-1 children of the effective root.
Any element `d` — in particular a `data-text`-marked `<use>` — nested
inside a surviving child `c` (e.g. a nested group, which is never a
marked reference) is never removed: `c` stays in the pruned children
unchanged and `d` still occurs, unchanged, in the filter's output. -/
theorem depth_limitation (x c d : Elem)
    (hc : c ∈ (effectiveRoot x).children)
    (hkeep : isTextDuplicateRef c = false)
    (hd : Elem.occursIn d c = true) :
    c ∈ (removeMarkedUses (effectiveRoot x)).children
    ∧ Elem.occursIn d (strip_text_from_svg x) = true := by
  have hmem : c ∈ (removeMarkedUses (effectiveRoot x)).children := by
    rw [removeMarkedUses_children, List.mem_filter]
    exact ⟨hc, by rw [hkeep]; rfl⟩
  have hocc : Elem.occursIn d (removeMarkedUses (effectiveRoot x)) = true :=
    Elem.occursIn_of_mem_children hmem hd
  refine ⟨hmem, ?_⟩
  unfold strip_text_from_svg
  split
  · exact occursIn_wrapInSvg hocc
  · exact hocc

/-- Witness for `depth_limitation`: in
`<svg><g><g><use data-text="A"/></g></g></svg>` the marked `<use>` sits
two levels below the effective root (the outer `<g>`) and survives. -/
theorem depth_limitation_witness :
    Elem.occursIn (.elem useTag [("data-text", "A")] [])
      (strip_text_from_svg nestedMarkedUse) = true :=
  (depth_limitation nestedMarkedUse
    (.elem gTag [] [.elem useTag [("data-text", "A")] []])
    (.elem useTag [("data-text", "A")] [])
    (by decide) (by decide) (by decide)).2

/-- C3: for an input whose parsed root is the (namespaced) `svg` element:
if the root has exactly one `<g>` among its direct children, that group
becomes the effective root and the output is the group — with its marked
`<use>` children removed — re-wrapped in a minimal `svg` element that
declares the default SVG namespace; if the root has zero or two-or-more
`<g>` children the root element type is unchanged and the original root
(its marked `<use>` children removed) is serialised. -/
theorem root_promotion (x : Elem) (hx : x.tag = svgTag) :
    (∀ g, x.children.filter (fun c => c.tag == gTag) = [g] →
      strip_text_from_svg x =
        Elem.elem svgTag [("xmlns", svgNS)]
          [Elem.elem g.tag g.attrs
            (g.children.filter (fun c => !isTextDuplicateRef c))])
    ∧ ((x.children.filter (fun c => c.tag == gTag)).length ≠ 1 →
      (strip_text_from_svg x).tag = x.tag ∧
      strip_text_from_svg x =
        Elem.elem x.tag x.attrs
          (x.children.filter (fun c => !isTextDuplicateRef c))) := by
  constructor
  · intro g hg
    obtain ⟨her, hgt⟩ := effectiveRoot_of_single hg
    unfold strip_text_from_svg
    rw [her, if_pos (show ((removeMarkedUses g).tag == gTag) = true by
      simp [hgt])]
    rfl
  · intro hlen
    have her := effectiveRoot_of_not_single hlen
    unfold strip_text_from_svg
    rw [her, if_neg (show ¬((removeMarkedUses x).tag == gTag) = true by
      simp [hx, svgTag_ne_gTag])]
    exact ⟨rfl, rfl⟩

/-- Witness for `root_promotion`: both branches at concrete inputs. -/
theorem root_promotion_witness :
    strip_text_from_svg
      (.elem svgTag [("viewBox", "0 0 8 8")]
        [.elem gTag [("fill", "red")] [.elem useTag [("data-text", "A")] []]])
      = Elem.elem svgTag [("xmlns", svgNS)] [.elem gTag [("fill", "red")] []]
    ∧ (strip_text_from_svg (.elem svgTag [("viewBox", "0 0 8 8")]
        [.elem rectTag [] []])).tag = svgTag := by
  have h1 := (root_promotion
    (.elem svgTag [("viewBox", "0 0 8 8")]
      [.elem gTag [("fill", "red")] [.elem useTag [("data-text", "A")] []]])
    rfl).1
    (.elem gTag [("fill", "red")] [.elem useTag [("data-text", "A")] []])
    (by decide)
  have h2 := (root_promotion
    (.elem svgTag [("viewBox", "0 0 8 8")] [.elem rectTag [] []]) rfl).2
    (by decide)
  exact ⟨by rw [h1]; decide, h2.1⟩

/-- Counterexample to C1 as stated: in `<svg><rect/><g/></svg>` the
`<rect>` is a non-reference element (not a `use`, not marked), yet the
root promotion drops it — it is absent from the filter's output. -/
theorem visual_preservation_counterexample :
    Elem.occursIn (.elem rectTag [] []) rectBesideG = true
    ∧ rectTag ≠ useTag
    ∧ isTextDuplicateRef (.elem rectTag [] []) = false
    ∧ Elem.occursIn (.elem rectTag [] [])
        (strip_text_from_svg rectBesideG) = false := by
  refine ⟨by decide, by decide, by decide, by decide⟩

/-- C1 amended: the preservation invariant holds below the *effective*
root (when the root is promoted, the original root's other children and
its attributes are dropped).  Every direct child of the effective root
that is not a `data-text`-marked `<use>` — in particular every
non-reference child — is present, unchanged, and the surviving children
keep their original sibling order (they form a sublist of the input
children); each survivor still occurs, unchanged, in the filter's
output. -/
theorem visual_preservation_effective (x : Elem) :
    List.Sublist (removeMarkedUses (effectiveRoot x)).children
      (effectiveRoot x).children
    ∧ (∀ c ∈ (effectiveRoot x).children, isTextDuplicateRef c = false →
        c ∈ (removeMarkedUses (effectiveRoot x)).children)
    ∧ (∀ c ∈ (effectiveRoot x).children, c.tag ≠ useTag →
        c ∈ (removeMarkedUses (effectiveRoot x)).children)
    ∧ (∀ c ∈ (removeMarkedUses (effectiveRoot x)).children,
        Elem.occursIn c (strip_text_from_svg x) = true) := by
  refine ⟨?_, ?_, ?_, ?_⟩
  · rw [removeMarkedUses_children]
    exact List.filter_sublist _
  · intro c hc hkeep
    rw [removeMarkedUses_children, List.mem_filter]
    exact ⟨hc, by rw [hkeep]; rfl⟩
  · intro c hc htag
    rw [removeMarkedUses_children, List.mem_filter]
    refine ⟨hc, ?_⟩
    unfold isTextDuplicateRef
    simp [htag]
  · intro c hc
    have hocc : Elem.occursIn c (removeMarkedUses (effectiveRoot x)) = true :=
      Elem.occursIn_of_mem_children hc (Elem.occursIn_self c)
    unfold strip_text_from_svg
    split
    · exact occursIn_wrapInSvg hocc
    · exact hocc

/-- Witness for `visual_preservation_effective`: in
`<svg><rect/><use data-text="A"/><use xlink:href="#u"/></svg>` (no `<g>`
child, so the root is the effective root) the `<rect>` and the unmarked
`<use>` survive and still occur in the output. -/
theorem visual_preservation_effective_witness :
    (Elem.elem rectTag [] []) ∈
      (removeMarkedUses (effectiveRoot
        (.elem svgTag []
          [.elem rectTag [] [],
           .elem useTag [("data-text", "A")] [],
           .elem useTag [(xlinkHref, "#u")] []]))).children
    ∧ Elem.occursIn (.elem useTag [(xlinkHref, "#u")] [])
        (strip_text_from_svg
          (.elem svgTag []
            [.elem rectTag [] [],
             .elem useTag [("data-text", "A")] [],
             .elem useTag [(xlinkHref, "#u")] []])) = true := by
  have h := visual_preservation_effective
    (.elem svgTag []
      [.elem rectTag [] [],
       .elem useTag [("data-text", "A")] [],
       .elem useTag [(xlinkHref, "#u")] []])
  refine ⟨h.2.2.1 (.elem rectTag [] []) (by decide) (by decide), ?_⟩
  exact h.2.2.2 (.elem useTag [(xlinkHref, "#u")] []) (by decide)

/-- C5: `strip_text_from_svg` is idempotent — filtering the filter's
output returns a structurally identical tree, for every input. -/
theorem strip_idempotent (x : Elem) :
    strip_text_from_svg (strip_text_from_svg x) = strip_text_from_svg x := by
  by_cases hlen : (x.children.filter (fun c => c.tag == gTag)).length = 1
  · obtain ⟨g, hg⟩ := List.length_eq_one.mp hlen
    obtain ⟨her, hgt⟩ := effectiveRoot_of_single hg
    have hstrip : strip_text_from_svg x = wrapInSvg (removeMarkedUses g) := by
      unfold strip_text_from_svg
      rw [her, if_pos (show ((removeMarkedUses g).tag == gTag) = true by
        simp [hgt])]
    rw [hstrip]
    exact strip_wrapInSvg_of_clean (by simp [hgt]) (removeMarkedUses_idem g)
  · have her := effectiveRoot_of_not_single hlen
    by_cases hxg : x.tag = gTag
    · have hstrip : strip_text_from_svg x = wrapInSvg (removeMarkedUses x) := by
        unfold strip_text_from_svg
        rw [her, if_pos (show ((removeMarkedUses x).tag == gTag) = true by
          simp [hxg])]
      rw [hstrip]
      exact strip_wrapInSvg_of_clean (by simp [hxg]) (removeMarkedUses_idem x)
    · have hstrip : strip_text_from_svg x = removeMarkedUses x := by
        unfold strip_text_from_svg
        rw [her, if_neg (show ¬((removeMarkedUses x).tag == gTag) = true by
          simp [hxg])]
      rw [hstrip]
      have hlen' :
          ((removeMarkedUses x).children.filter
            (fun c => c.tag == gTag)).length ≠ 1 := by
        rw [filter_g_removeMarkedUses]
        exact hlen
      have her' := effectiveRoot_of_not_single hlen'
      unfold strip_text_from_svg
      rw [her', removeMarkedUses_idem,
        if_neg (show ¬((removeMarkedUses x).tag == gTag) = true by
          simp [hxg])]

theorem setAttr_of_absent {attrList : List (String × String)} {key : String}
    (h : attrList.any (fun p => p.1 == key) = false) (value : String) :
    setAttr attrList key value = attrList ++ [(key, value)] := by
  unfold setAttr
  rw [if_neg (by simp [h])]

/-- C9: if the parsed SVG root lacks the `width` and `height` attributes,
`rasterize_svg_to_png` injects the default `1920px`/`1080px` pair before
rasterizing; if the root already has both, the file content reaches the
rasterizer unmodified. -/
theorem rasterizer_dimensions (root : Elem) :
    (root.hasAttr "width" = false ∧ root.hasAttr "height" = false →
      rasterize_svg_to_png_default root =
        Elem.elem root.tag
          (root.attrs ++ [("width", "1920px"), ("height", "1080px")])
          root.children)
    ∧ (root.hasAttr "width" = true ∧ root.hasAttr "height" = true →
      rasterize_svg_to_png_default root = root) := by
  constructor
  · rintro ⟨hw, hh⟩
    unfold rasterize_svg_to_png_default rasterize_svg_to_png
    rw [if_pos (show (!(root.hasAttr "width") || !(root.hasAttr "height"))
        = true by rw [hw]; rfl)]
    unfold Elem.hasAttr at hw hh
    rw [setAttr_of_absent hw]
    rw [setAttr_of_absent
      (show ((root.attrs ++ [("width", toString 1920 ++ "px")]).any
          (fun p => p.1 == "height")) = false by
        rw [List.any_append, hh]
        rfl)]
    rw [List.append_assoc]
    rfl
  · rintro ⟨hw, hh⟩
    unfold rasterize_svg_to_png_default rasterize_svg_to_png
    rw [if_neg (show ¬((!(root.hasAttr "width") || !(root.hasAttr "height"))
        = true) by rw [hw, hh]; decide)]

/-- Witness for `rasterizer_dimensions` at both branches: a root with
only a `viewBox` gets the default pair appended; a root with explicit
dimensions passes through unchanged. -/
theorem rasterizer_dimensions_witness :
    rasterize_svg_to_png_default (.elem svgTag [("viewBox", "0 0 4 4")] [])
      = Elem.elem svgTag
          [("viewBox", "0 0 4 4"), ("width", "1920px"), ("height", "1080px")]
          []
    ∧ rasterize_svg_to_png_default
        (.elem svgTag [("width", "10px"), ("height", "20px")] [])
      = Elem.elem svgTag [("width", "10px"), ("height", "20px")] [] := by
  have h1 := (rasterizer_dimensions
    (.elem svgTag [("viewBox", "0 0 4 4")] [])).1 ⟨by decide, by decide⟩
  have h2 := (rasterizer_dimensions
    (.elem svgTag [("width", "10px"), ("height", "20px")] [])).2
    ⟨by decide, by decide⟩
  exact ⟨by rw [h1]; decide, h2⟩

/-- Counterexample to the `<ext>` part of C7: a JPEG image (format tag
`"jpeg"`, reference id 7) embedded on page 0 is written to
`page0-image7.png` — line 99 hard-codes the `.png` suffix — and no
`page0-image7.jpeg` file is produced. -/
theorem extraction_naming_counterexample :
    (extract_pdf_text_writes [⟨"T0", [⟨7, "jpeg", "D7"⟩]⟩]).map Prod.fst
      = ["page0_text.txt", "page0-image7.png"]
    ∧ "page0-image7.jpeg" ∉
        (extract_pdf_text_writes [⟨"T0", [⟨7, "jpeg", "D7"⟩]⟩]).map Prod.fst := by
  refine ⟨by decide, by decide⟩

/-- C7 amended: in `text` mode a 2-page document produces, in order,
`page0_text.txt`, one `page<0>-image<XREF>.png` per image of page 0,
`page1_text.txt`, and one `page<1>-image<XREF>.png` per image of page 1 —
with the extension always the literal `png`, regardless of the image's
format tag. -/
theorem extraction_naming (p0 p1 : PdfPage) :
    (extract_pdf_text_writes [p0, p1]).map Prod.fst =
      (pageTextName 0 :: p0.images.map (fun im => pageImageName 0 im.xref))
      ++ (pageTextName 1 :: p1.images.map (fun im => pageImageName 1 im.xref))
    ∧ pageTextName 0 = "page0_text.txt"
    ∧ pageTextName 1 = "page1_text.txt"
    ∧ pageImageName 1 42 = "page1-image42.png"
    ∧ (extract_pdf_text_writes [p0, p1]).length
        = 2 + p0.images.length + p1.images.length := by
  refine ⟨?_, rfl, rfl, rfl, ?_⟩
  · unfold extract_pdf_text_writes
    rw [show List.enum [p0, p1] = [(0, p0), (1, p1)] from rfl]
    simp only [List.flatMap_cons, List.flatMap_nil, List.map_append,
      List.map_cons, List.map_map, List.append_nil]
    rfl
  · unfold extract_pdf_text_writes
    rw [show List.enum [p0, p1] = [(0, p0), (1, p1)] from rfl]
    simp [List.length_append]
    omega

/-- An extractor that raises on `papers/bad.pdf` — modelling `fitz.open`
failing on an unreadable document — and succeeds everywhere else. -/
def failingExtract : String → String → Except String (List (String × String)) :=
  fun p _ =>
    if p == "papers/bad.pdf" then .error "cannot open broken document"
    else .ok []

/-- Counterexample to C2 as stated: with `bad.pdf` (unreadable) listed
before `good.pdf`, the failure is not caught inside `process_pdfs` — the
exception escapes the batch loop — no document's extraction completes,
and in particular `good.pdf` is never processed. -/
theorem batch_abort_counterexample :
    (process_pdfs failingExtract ["bad.pdf", "good.pdf"]
        "papers" "text" none).error = some "cannot open broken document"
    ∧ (process_pdfs failingExtract ["bad.pdf", "good.pdf"]
        "papers" "text" none).extracted = []
    ∧ "papers/good.pdf" ∉
        (process_pdfs failingExtract ["bad.pdf", "good.pdf"]
          "papers" "text" none).extracted := by
  refine ⟨by decide, by decide, by decide⟩

theorem processLoop_append_error
    (extract : String → String → Except String (List (String × String)))
    (src ed bad e : String) (ys : List String)
    (hbad : ∀ o, extract (pathJoin src bad) o = .error e) :
    ∀ (xs : List String) (acc : ProcessResult),
      (∀ n ∈ xs, ∀ o, ∃ ws, extract (pathJoin src n) o = .ok ws) →
      (processLoop extract src ed (xs ++ bad :: ys) acc).error = some e
      ∧ (processLoop extract src ed (xs ++ bad :: ys) acc).extracted
          = acc.extracted ++ xs.map (fun n => pathJoin src n) := by
  intro xs
  induction xs with
  | nil =>
    intro acc _
    rw [List.nil_append]
    simp only [processLoop]
    rw [hbad _]
    exact ⟨rfl, by simp⟩
  | cons n ns ih =>
    intro acc hok
    obtain ⟨ws, hws⟩ :=
      hok n (List.mem_cons_self n ns) (pathJoin ed (splitextStem n))
    rw [List.cons_append]
    simp only [processLoop]
    rw [hws]
    refine ⟨(ih _ (fun m hm => hok m (List.mem_cons_of_mem n hm))).1, ?_⟩
    rw [(ih _ (fun m hm => hok m (List.mem_cons_of_mem n hm))).2]
    simp

/-- C2 amended: `process_pdfs` has no `try`/`except` around the
per-document extraction, so when a document in the batch cannot be
opened or parsed the exception escapes `process_pdfs` (nothing is caught
or logged at the document level) and the batch is aborted: exactly the
documents listed before the failing one complete their extraction; the
failing one and every later one do not. -/
theorem batch_abort
    (extract : String → String → Except String (List (String × String)))
    (listing : List String) (src : String)
    (xs ys : List String) (bad e : String)
    (hsplit : listing.filter (fun f => pyEndsWith f ".pdf") = xs ++ bad :: ys)
    (hxs : ∀ n ∈ xs, ∀ o, ∃ ws, extract (pathJoin src n) o = .ok ws)
    (hbad : ∀ o, extract (pathJoin src bad) o = .error e) :
    (process_pdfs extract listing src "text" none).error = some e
    ∧ (process_pdfs extract listing src "text" none).extracted
        = xs.map (fun n => pathJoin src n) := by
  have hp : process_pdfs extract listing src "text" none
      = processLoop extract src (pathJoin src "extracted-text")
          (listing.filter (fun f => pyEndsWith f ".pdf"))
          ⟨[], [pathJoin src "extracted-text"], [], [], none⟩ := rfl
  rw [hp, hsplit]
  have h := processLoop_append_error extract src
    (pathJoin src "extracted-text") bad e ys hbad xs
    ⟨[], [pathJoin src "extracted-text"], [], [], none⟩ hxs
  exact ⟨h.1, by rw [h.2]; rfl⟩

/-- Witness for `batch_abort`: `good.pdf` (readable) listed before
`bad.pdf` (unreadable) — the good document completes, then the exception
escapes and aborts the batch. -/
theorem batch_abort_witness :
    (process_pdfs failingExtract ["good.pdf", "bad.pdf"]
        "papers" "text" none).error = some "cannot open broken document"
    ∧ (process_pdfs failingExtract ["good.pdf", "bad.pdf"]
        "papers" "text" none).extracted = ["papers/good.pdf"] := by
  have h := batch_abort failingExtract ["good.pdf", "bad.pdf"] "papers"
    ["good.pdf"] [] "bad.pdf" "cannot open broken document"
    (by decide)
    (by intro n hn o
        rcases List.mem_singleton.mp hn with rfl
        exact ⟨[], rfl⟩)
    (fun o => rfl)
  exact ⟨h.1, by rw [h.2]; rfl⟩

/-- C8: for an output type that is neither `"text"` nor `"svg"`,
`get_output_dir` prints the `Unsupported type` message and returns
`None`, and `process_pdfs` returns before `os.makedirs` — no exception,
no directory created, no file written, no document extracted. -/
theorem unsupported_type_skips
    (extract : String → String → Except String (List (String × String)))
    (listing : List String) (src ty : String) (limit : Option Int)
    (h1 : ty ≠ "text") (h2 : ty ≠ "svg") :
    get_output_dir src ty = (none, ["Unsupported type: " ++ ty])
    ∧ process_pdfs extract listing src ty limit
        = ⟨["Unsupported type: " ++ ty], [], [], [], none⟩ := by
  have hg : get_output_dir src ty = (none, ["Unsupported type: " ++ ty]) := by
    unfold get_output_dir
    rw [if_neg (show ¬((ty == "text") = true) by simp [h1]),
      if_neg (show ¬((ty == "svg") = true) by simp [h2])]
  refine ⟨hg, ?_⟩
  unfold process_pdfs
  rw [hg]

/-- Witness for `unsupported_type_skips` at the type `"markdown"`. -/
theorem unsupported_type_skips_witness :
    get_output_dir "papers" "markdown"
      = (none, ["Unsupported type: markdown"])
    ∧ process_pdfs (fun _ _ => Except.ok []) ["a.pdf"] "papers" "markdown" none
        = ⟨["Unsupported type: markdown"], [], [], [], none⟩ := by
  have h := unsupported_type_skips (fun _ _ => Except.ok []) ["a.pdf"]
    "papers" "markdown" none (by decide) (by decide)
  exact ⟨by rw [h.1]; rfl, by rw [h.2]; rfl⟩

/-- An extractor that always succeeds (and performs no modelled writes). -/
def okExtract : String → String → Except String (List (String × String)) :=
  fun _ _ => .ok []

theorem processLoop_all_ok
    (extract : String → String → Except String (List (String × String)))
    (src ed : String)
    (hok : ∀ p o, ∃ ws, extract p o = Except.ok ws) :
    ∀ (l : List String) (acc : ProcessResult),
      (processLoop extract src ed l acc).extracted
        = acc.extracted ++ l.map (fun n => pathJoin src n) := by
  intro l
  induction l with
  | nil =>
    intro acc
    simp [processLoop]
  | cons n ns ih =>
    intro acc
    obtain ⟨ws, hws⟩ := hok (pathJoin src n) (pathJoin ed (splitextStem n))
    simp only [processLoop]
    rw [hws, ih]
    simp

theorem applyLimit_zero (xs : List α) : applyLimit (some 0) xs = xs := rfl

theorem applyLimit_pos {n : Int} (hn : 0 < n) (xs : List α) :
    applyLimit (some n) xs = xs.take n.toNat := by
  show (if (n == 0) = true then xs else pySliceTo n xs) = xs.take n.toNat
  rw [if_neg (show ¬((n == 0) = true) by
      simp only [beq_iff_eq]
      omega)]
  unfold pySliceTo
  rw [if_pos (le_of_lt hn)]

/-- C10: `if limit:` treats `0` like `None` — with `limit = 0` the
truncation is skipped, the run equals the unlimited run, and (when every
extraction succeeds) every `.pdf` file of the source listing is
processed; with a positive limit `n` exactly the first `n` `.pdf` files
(at most `n`) are processed. -/
theorem limit_zero_edge
    (extract : String → String → Except String (List (String × String)))
    (listing : List String) (src : String)
    (hok : ∀ p o, ∃ ws, extract p o = Except.ok ws) :
    (∀ ty, process_pdfs extract listing src ty (some 0)
        = process_pdfs extract listing src ty none)
    ∧ (process_pdfs extract listing src "text" (some 0)).extracted
        = (listing.filter (fun f => pyEndsWith f ".pdf")).map
            (fun n => pathJoin src n)
    ∧ ∀ n : Int, 0 < n →
        (process_pdfs extract listing src "text" (some n)).extracted
          = ((listing.filter (fun f => pyEndsWith f ".pdf")).take n.toNat).map
              (fun m => pathJoin src m)
        ∧ (process_pdfs extract listing src "text" (some n)).extracted.length
            ≤ n.toNat := by
  refine ⟨?_, ?_, ?_⟩
  · intro ty
    rfl
  · have hp : process_pdfs extract listing src "text" (some 0)
        = processLoop extract src (pathJoin src "extracted-text")
            (listing.filter (fun f => pyEndsWith f ".pdf"))
            ⟨[], [pathJoin src "extracted-text"], [], [], none⟩ := rfl
    rw [hp, processLoop_all_ok extract src _ hok]
    rfl
  · intro n hn
    have hp : process_pdfs extract listing src "text" (some n)
        = processLoop extract src (pathJoin src "extracted-text")
            (applyLimit (some n) (listing.filter (fun f => pyEndsWith f ".pdf")))
            ⟨[], [pathJoin src "extracted-text"], [], [], none⟩ := rfl
    have he : (process_pdfs extract listing src "text" (some n)).extracted
        = ((listing.filter (fun f => pyEndsWith f ".pdf")).take n.toNat).map
            (fun m => pathJoin src m) := by
      rw [hp, applyLimit_pos hn, processLoop_all_ok extract src _ hok]
      rfl
    refine ⟨he, ?_⟩
    rw [he, List.length_map]
    exact (List.length_take_le _ _).trans (le_refl _)

/-- Witness for `limit_zero_edge`: three listed files, two of them PDFs;
`limit = 0` processes both PDFs, `limit = 1` processes only the first. -/
theorem limit_zero_edge_witness :
    (process_pdfs okExtract ["a.pdf", "b.pdf", "notes.txt"]
        "papers" "text" (some 0)).extracted
      = ["papers/a.pdf", "papers/b.pdf"]
    ∧ (process_pdfs okExtract ["a.pdf", "b.pdf", "notes.txt"]
        "papers" "text" (some 1)).extracted
      = ["papers/a.pdf"] := by
  have h := limit_zero_edge okExtract ["a.pdf", "b.pdf", "notes.txt"]
    "papers" (fun p o => ⟨[], rfl⟩)
  exact ⟨by rw [h.2.1]; decide, by rw [(h.2.2 1 (by decide)).1]; decide⟩
